import Mathlib

/-
Verification development for the youtube-trending-bot brain module: the
YoutubeMarkov class (constants, updateMapFromYoutube, the metric getters,
loadDataFromStorage / initialise, saveDataToStorage, saveCommentsToStorage)
and the storage helpers saveJSONToFile / loadJSONFromFile / loadFile.

The markov dictionary functions (createDictionaryFromInput,
updateDictionaryFromInput, ControlTokens) are imported by the source from
../markov, which is not among the sources; they are modelled from the
specification, sections 4.1 and 4.2. File reads that can fail (missing
file, malformed JSON) are modelled as Option results, exactly the shape
loadJSONFromFile / loadFile give back after their catch blocks. The
directory-creation behaviour of the write helpers is modelled separately
on a small filesystem of directory paths.
-/

/-- Modelled from the spec: a token is a word kept verbatim or one of the
two control symbols START and END (the ControlTokens of the markov
module). -/
inductive Token where
  | START : Token
  | END : Token
  | word : String → Token
deriving DecidableEq

/-- The transition map IMarkovMap: chain keys (tuples of K tokens) mapped
to the ordered list of observed successor tokens, duplicates kept. Keys
are unique and kept in first-insertion order, mirroring the string-keyed
javascript object of the source. -/
abbrev IMarkovMap : Type := List (List Token × List Token)

/-- Modelled from the spec: characters ending a sentence-like unit
(sentence-ending punctuation or a line boundary). -/
def isSentenceBoundary (c : Char) : Bool :=
  c = '\n' || c = '.' || c = '!' || c = '?'

/-- Splits a character list at the characters satisfying p, accumulator
style; the separators are dropped. -/
def splitChars (p : Char → Bool) : List Char → List Char → List (List Char)
  | [], acc => [acc.reverse]
  | c :: rest, acc =>
    if p c then acc.reverse :: splitChars p rest []
    else splitChars p rest (c :: acc)

/-- Modelled from the spec: one sentence-like unit is split on whitespace
into word tokens, preserved verbatim; empty fragments are discarded. -/
def tokenizeUnit (unit : List Char) : List Token :=
  ((splitChars (fun c => c.isWhitespace) unit []).filter
    (fun w => !w.isEmpty)).map (fun w => Token.word (String.mk w))

/-- Modelled from the spec, section 4.1: split the input blob into
sentence-like units, tokenize each, drop units with no tokens, and wrap
each remaining unit with K leading START tokens and one trailing END
token. Empty input yields zero sequences. -/
def splitInputIntoMessages (text : String) (K : Nat) : List (List Token) :=
  (splitChars isSentenceBoundary text.toList []).filterMap (fun unit =>
    let ts := tokenizeUnit unit
    if ts.isEmpty then none
    else some (List.replicate K Token.START ++ ts ++ [Token.END]))

/-- Modelled from the spec, section 4.2: sliding-window extraction. For
every position i of a token sequence the key is the K tokens starting at
i and the recorded successor is the token at position i + K. -/
def windows (K : Nat) : List Token → List (List Token × Token)
  | [] => []
  | t :: rest =>
    (if h : K < (t :: rest).length then
      [((t :: rest).take K, (t :: rest).get ⟨K, h⟩)]
    else []) ++ windows K rest

/-- Appends one observed successor to the entry of the given key, creating
the entry at the end of the map when the key is new (javascript object
insertion order). -/
def addEntry : IMarkovMap → List Token → Token → IMarkovMap
  | [], key, tok => [(key, [tok])]
  | (k, vs) :: rest, key, tok =>
    if k = key then (k, vs ++ [tok]) :: rest
    else (k, vs) :: addEntry rest key tok

/-- Modelled from the spec, section 4.2: update appends every observed
window successor of the input text to the existing map. -/
def updateDictionaryFromInput (text : String) (map : IMarkovMap) (K : Nat) :
    IMarkovMap :=
  (splitInputIntoMessages text K).foldl
    (fun m seq => (windows K seq).foldl (fun m2 kv => addEntry m2 kv.1 kv.2) m)
    map

/-- Modelled from the spec, section 4.2: build returns a freshly populated
map, with window extraction identical to update, starting from nothing. -/
def createDictionaryFromInput (text : String) (K : Nat) : IMarkovMap :=
  updateDictionaryFromInput text [] K

/-- Constant from the source: 1 quota unit per video listing plus 3 per
comment fetching. -/
def QUOTA_COST_PER_FETCH : Nat := 4

/-- Constant from the source. -/
def MAX_QUOTA_PER_DAY : Nat := 10000

/-- Constant from the source. -/
def COMMENTS_PER_BATCH : Nat := 100

/-- Constant from the source: the quota ceiling on fetched comments. -/
def MAX_COMMENTS_PER_DAY : Nat :=
  MAX_QUOTA_PER_DAY / QUOTA_COST_PER_FETCH * COMMENTS_PER_BATCH

/-- Constant from the source. -/
def MAX_COMMENTS_PER_VIDEO : Nat := 10000

/-- Constant from the source. -/
def MAX_VIDEOS_PER_UPDATE : Nat := 50

/-- Constant from the source. -/
def CHAIN_LENGTH : Nat := 3

/-- The getKeyCount method. -/
def getKeyCount (map : IMarkovMap) : Nat := map.length

/-- A javascript number as far as this code needs it: a finite rational or
one of the special values. Finite nonzero division is idealised as exact
rational division; the zero-denominator cases follow the IEEE rules
javascript uses. -/
inductive JSNum where
  | num : ℚ → JSNum
  | nan : JSNum
  | posInf : JSNum
  | negInf : JSNum
deriving DecidableEq

/-- Javascript division: 0 / 0 is NaN, x / 0 with x nonzero is a signed
infinity, otherwise ordinary division. -/
def jsDiv (a b : ℚ) : JSNum :=
  if b = 0 then
    if a = 0 then JSNum.nan
    else if 0 < a then JSNum.posInf
    else JSNum.negInf
  else JSNum.num (a / b)

/-- The getKeyValueRatio method: the summed successor-list lengths over
the values of the map, divided (javascript division) by the key count. -/
def getKeyValueRatio (map : IMarkovMap) : JSNum :=
  jsDiv ((map.map (fun kv => ((kv.2.length : ℚ)))).sum) ((getKeyCount map : ℚ))

/-- The getSentencesProcessed method: flatten all successor lists and
count the tokens strictly equal to ControlTokens.END. -/
def getSentencesProcessed (map : IMarkovMap) : Nat :=
  (((map.map Prod.snd).flatten).filter (fun token => token == Token.END)).length

/-- The in-memory fields of a YoutubeMarkov object. The harvested id set
is a javascript Set, kept as its insertion-ordered element list. -/
structure MarkovState where
  map : IMarkovMap
  harvestedYoutubeIDs : List String
deriving DecidableEq

/-- The three storage files. A file that is absent, or whose JSON does not
parse, is modelled as none: exactly the shape loadJSONFromFile and
loadFile give back after their catch blocks. -/
structure Storage where
  mapFile : Option IMarkovMap
  idsFile : Option (List String)
  commentsFile : Option String
deriving DecidableEq

/-- Adding to a javascript Set: appended at the end when absent. -/
def addToSet (s : List String) (v : String) : List String :=
  if s.contains v then s else s ++ [v]

/-- Building a javascript Set from an array: deduplicates, keeping first
occurrences in order. -/
def setFromList (l : List String) : List String :=
  l.foldl addToSet []

/-- The saveDataToStorage method: writes the id array and the map to their
two files. -/
def saveDataToStorage (st : MarkovState) (sto : Storage) : Storage :=
  { sto with
    idsFile := some st.harvestedYoutubeIDs,
    mapFile := some st.map }

/-- The saveCommentsToStorage append: appendFile concatenates the joined
comments onto the existing contents, creating the file when absent. -/
def appendComments (sto : Storage) (comments : List String) : Storage :=
  { sto with
    commentsFile :=
      some ((sto.commentsFile.getD "") ++ String.intercalate "\n" comments) }

/-- What one run of the harvest loop leaves behind: the mutated in-memory
state, the storage, the running commentsFetched counter, the list of video
ids the loop fetched in order, and whether the loop finished without a
fetch rejection (when false, the exception propagates out of
updateMapFromYoutube before the final save). -/
structure CycleResult where
  st : MarkovState
  sto : Storage
  commentsFetched : Nat
  fetchedIDs : List String
  ok : Bool

/-- One iteration body of the harvest loop: update the dictionary with the
newline-joined comments and add the video id to the harvested set. -/
def stepState (st : MarkovState) (videoId : String) (comments : List String) :
    MarkovState :=
  { map := updateDictionaryFromInput (String.intercalate "\n" comments)
      st.map CHAIN_LENGTH,
    harvestedYoutubeIDs := addToSet st.harvestedYoutubeIDs videoId }

/-- The for-loop of updateMapFromYoutube. fetch models
fetchAllCommentsForVideo and may reject. After a successful fetch the
counter grows by the comment count, the dictionary is updated, the id is
added, the comments are appended to the corpus log, and the loop stops
once the next fetch could pass the daily ceiling. A rejection aborts the
loop, keeping the mutations of the earlier iterations. -/
def processVideos (fetch : String → Except Unit (List String)) :
    List String → MarkovState → Storage → Nat → CycleResult
  | [], st, sto, c => ⟨st, sto, c, [], true⟩
  | videoId :: rest, st, sto, c =>
    match fetch videoId with
    | Except.error _ => ⟨st, sto, c, [], false⟩
    | Except.ok comments =>
      if c + comments.length + MAX_COMMENTS_PER_VIDEO > MAX_COMMENTS_PER_DAY then
        ⟨stepState st videoId comments, appendComments sto comments,
          c + comments.length, [videoId], true⟩
      else
        let r := processVideos fetch rest (stepState st videoId comments)
          (appendComments sto comments) (c + comments.length)
        { r with fetchedIDs := videoId :: r.fetchedIDs }

/-- The filter-and-slice of updateMapFromYoutube producing the batch of
candidate videos for one cycle. -/
def filteredBatch (harvested : List String) (trendingResult : List String) :
    List String :=
  (trendingResult.filter (fun videoID => !(harvested.contains videoID))).take
    MAX_VIDEOS_PER_UPDATE

/-- The updateMapFromYoutube method, given the list fetchTrendingVideos
returned and the fetch collaborator. When the loop runs with no fetch
rejection the map and the harvested-id array are saved at the end; a
rejection propagates and nothing is saved. -/
def updateMapFromYoutube (fetch : String → Except Unit (List String))
    (trendingResult : List String) (st : MarkovState) (sto : Storage) :
    CycleResult :=
  let r := processVideos fetch
    (filteredBatch st.harvestedYoutubeIDs trendingResult) st sto 0
  if r.ok then { r with sto := saveDataToStorage r.st r.sto } else r

/-- The loadDataFromStorage method: restore the harvested ids when their
file loads, then the map when its file loads; otherwise create a fresh
map and, when the corpus log exists, rebuild the map from it and re-save
everything. -/
def loadDataFromStorage (sto : Storage) : MarkovState × Storage :=
  let harvested :=
    match sto.idsFile with
    | some ids => setFromList ids
    | none => []
  match sto.mapFile with
  | some m => (⟨m, harvested⟩, sto)
  | none =>
    match sto.commentsFile with
    | some allCommentsEver =>
      let st : MarkovState :=
        ⟨updateDictionaryFromInput allCommentsEver
          (createDictionaryFromInput "" CHAIN_LENGTH) CHAIN_LENGTH, harvested⟩
      (st, saveDataToStorage st sto)
    | none => (⟨createDictionaryFromInput "" CHAIN_LENGTH, harvested⟩, sto)

/-- The initialise method awaits loadDataFromStorage. -/
def initialise (sto : Storage) : MarkovState × Storage :=
  loadDataFromStorage sto

/-- One step of the system life: a harvest cycle with its trending list
and fetch results, or a process restart that constructs a fresh object
over the persisted storage and calls initialise. -/
inductive Event where
  | cycle : List String → (String → List String) → Event
  | restart : Event

/-- Runs one event, returning the next state and the video ids fetched
during the event. -/
def runEvent (s : MarkovState × Storage) : Event → (MarkovState × Storage) × List String
  | Event.cycle trendingResult f =>
    let r := updateMapFromYoutube (fun v => Except.ok (f v)) trendingResult s.1 s.2
    ((r.st, r.sto), r.fetchedIDs)
  | Event.restart => (initialise s.2, [])

/-- Runs a sequence of events, concatenating every fetched video id. -/
def runTrace : (MarkovState × Storage) → List Event → (MarkovState × Storage) × List String
  | s, [] => (s, [])
  | s, e :: rest =>
    ((runTrace (runEvent s e).1 rest).1,
     (runEvent s e).2 ++ (runTrace (runEvent s e).1 rest).2)

/-- A fresh process started over empty storage. -/
def initialSystem : MarkovState × Storage :=
  initialise ⟨none, none, none⟩

/-- Invariant tying the in-memory harvested ids to the persisted id file:
either nothing was ever saved and the set is empty, or the id file holds
exactly the members of the set. -/
def StInv (s : MarkovState × Storage) : Prop :=
  (s.2.idsFile = none ∧ s.1.harvestedYoutubeIDs = []) ∨
  (∃ ids, s.2.idsFile = some ids ∧
    ∀ v, v ∈ s.1.harvestedYoutubeIDs ↔ v ∈ ids)

/-- Directory structure of the filesystem, for the directory-creation
claims: the set of existing directories, each as a component path. The
empty path is the root and always exists. -/
structure FileSys where
  dirs : List (List String)
deriving DecidableEq

/-- The path.dirname of a component path. -/
def dirnameFS (p : List String) : List String := p.dropLast

/-- The fs.existsSync check on a directory path. -/
def existsSync (fs : FileSys) (d : List String) : Bool :=
  d.isEmpty || fs.dirs.contains d

/-- The node mkdirSync without the recursive flag: creates exactly one
directory, throwing when it already exists or when its own parent is
missing. -/
def mkdirSync (fs : FileSys) (d : List String) : Except Unit FileSys :=
  if existsSync fs d then Except.error ()
  else if existsSync fs (dirnameFS d) then Except.ok ⟨d :: fs.dirs⟩
  else Except.error ()

/-- Writing or appending a file requires its containing directory. -/
def writeFileFS (fs : FileSys) (filePath : List String) : Except Unit FileSys :=
  if existsSync fs (dirnameFS filePath) then Except.ok fs else Except.error ()

/-- The saveJSONToFile helper as it acts on directories: create the
dirname when missing (mkdirSync, one level only), then write the file. -/
def saveJSONToFile (fs : FileSys) (filePath : List String) : Except Unit FileSys :=
  if existsSync fs (dirnameFS filePath) then writeFileFS fs filePath
  else
    match mkdirSync fs (dirnameFS filePath) with
    | Except.error e => Except.error e
    | Except.ok fs2 => writeFileFS fs2 filePath

/-- The saveCommentsToStorage method as it acts on directories: the same
existsSync and mkdirSync guard as saveJSONToFile, then an appendFile. -/
def saveCommentsToStorageFS (fs : FileSys) (filePath : List String) :
    Except Unit FileSys :=
  if existsSync fs (dirnameFS filePath) then writeFileFS fs filePath
  else
    match mkdirSync fs (dirnameFS filePath) with
    | Except.error e => Except.error e
    | Except.ok fs2 => writeFileFS fs2 filePath

/-- Spec-side description of the per-cycle batch (section 4.4, step 2),
written after the words of the spec: walk the ranked candidates in order,
skip the identifiers already present in the harvested-ID set, and collect
until the per-cycle cap many have been taken. -/
def specBatch (harvested : List String) : List String → Nat → List String
  | _, 0 => []
  | [], _ => []
  | v :: rest, n + 1 =>
    if v ∈ harvested then specBatch harvested rest (n + 1)
    else v :: specBatch harvested rest n

/-- A concrete fetch collaborator used by witness instances. -/
def demoFetch : String → List String := fun _ => []

/-- List.contains agrees with membership for strings. -/
theorem contains_iff_mem (l : List String) (v : String) :
    l.contains v = true ↔ v ∈ l := by
  simp

/-- Membership in the result of a javascript Set add. -/
theorem mem_addToSet (s : List String) (w v : String) :
    v ∈ addToSet s w ↔ v ∈ s ∨ v = w := by
  unfold addToSet
  by_cases h : s.contains w = true
  · rw [if_pos h]
    have hw : w ∈ s := (contains_iff_mem s w).mp h
    constructor
    · exact Or.inl
    · rintro (hv | rfl)
      · exact hv
      · exact hw
  · rw [if_neg h]
    simp [List.mem_append]

/-- Membership after folding javascript Set adds over a list. -/
theorem mem_foldl_addToSet (l : List String) :
    ∀ acc v, v ∈ l.foldl addToSet acc ↔ v ∈ acc ∨ v ∈ l := by
  induction l with
  | nil => intro acc v; simp
  | cons a l ih =>
    intro acc v
    simp only [List.foldl_cons, ih, mem_addToSet, List.mem_cons]
    tauto

/-- Building a javascript Set from an array preserves membership. -/
theorem mem_setFromList (l : List String) (v : String) :
    v ∈ setFromList l ↔ v ∈ l := by
  unfold setFromList
  rw [mem_foldl_addToSet]
  simp

/-- Unfolding equation of the harvest loop on the empty batch. -/
theorem processVideos_nil (fetch : String → Except Unit (List String))
    (st : MarkovState) (sto : Storage) (c : Nat) :
    processVideos fetch [] st sto c = ⟨st, sto, c, [], true⟩ := rfl

/-- Unfolding equation of the harvest loop when the first fetch rejects. -/
theorem processVideos_cons_error (fetch : String → Except Unit (List String))
    (videoId : String) (rest : List String) (st : MarkovState) (sto : Storage)
    (c : Nat) (e : Unit) (hf : fetch videoId = Except.error e) :
    processVideos fetch (videoId :: rest) st sto c = ⟨st, sto, c, [], false⟩ := by
  simp only [processVideos, hf]

/-- Unfolding equation of the harvest loop when the first fetch resolves. -/
theorem processVideos_cons_ok (fetch : String → Except Unit (List String))
    (videoId : String) (rest : List String) (st : MarkovState) (sto : Storage)
    (c : Nat) (comments : List String) (hf : fetch videoId = Except.ok comments) :
    processVideos fetch (videoId :: rest) st sto c =
      if c + comments.length + MAX_COMMENTS_PER_VIDEO > MAX_COMMENTS_PER_DAY then
        ⟨stepState st videoId comments, appendComments sto comments,
          c + comments.length, [videoId], true⟩
      else
        { processVideos fetch rest (stepState st videoId comments)
            (appendComments sto comments) (c + comments.length) with
          fetchedIDs := videoId ::
            (processVideos fetch rest (stepState st videoId comments)
              (appendComments sto comments) (c + comments.length)).fetchedIDs } := by
  simp only [processVideos, hf]

/-- The ids the loop fetches form a sublist of the batch it was given. -/
theorem processVideos_fetched_sublist (fetch : String → Except Unit (List String)) :
    ∀ (videos : List String) (st : MarkovState) (sto : Storage) (c : Nat),
      List.Sublist (processVideos fetch videos st sto c).fetchedIDs videos := by
  intro videos
  induction videos with
  | nil => intro st sto c; simp [processVideos_nil]
  | cons videoId rest ih =>
    intro st sto c
    cases hf : fetch videoId with
    | error e =>
      rw [processVideos_cons_error fetch videoId rest st sto c e hf]
      exact List.nil_sublist _
    | ok comments =>
      rw [processVideos_cons_ok fetch videoId rest st sto c comments hf]
      by_cases hq : c + comments.length + MAX_COMMENTS_PER_VIDEO > MAX_COMMENTS_PER_DAY
      · rw [if_pos hq]
        exact (List.nil_sublist rest).cons₂ videoId
      · rw [if_neg hq]
        exact (ih _ _ _).cons₂ videoId

/-- The harvested set after the loop holds exactly the old members plus
the fetched ids. -/
theorem processVideos_mem_harvested (fetch : String → Except Unit (List String)) :
    ∀ (videos : List String) (st : MarkovState) (sto : Storage) (c : Nat) (v : String),
      v ∈ (processVideos fetch videos st sto c).st.harvestedYoutubeIDs ↔
        v ∈ st.harvestedYoutubeIDs ∨ v ∈ (processVideos fetch videos st sto c).fetchedIDs := by
  intro videos
  induction videos with
  | nil => intro st sto c v; simp [processVideos_nil]
  | cons videoId rest ih =>
    intro st sto c v
    cases hf : fetch videoId with
    | error e =>
      rw [processVideos_cons_error fetch videoId rest st sto c e hf]
      simp
    | ok comments =>
      rw [processVideos_cons_ok fetch videoId rest st sto c comments hf]
      by_cases hq : c + comments.length + MAX_COMMENTS_PER_VIDEO > MAX_COMMENTS_PER_DAY
      · rw [if_pos hq]
        simp [stepState, mem_addToSet]
      · rw [if_neg hq]
        simp only [ih, stepState, mem_addToSet, List.mem_cons]
        tauto

/-- With a fetch collaborator that never rejects, the loop finishes. -/
theorem processVideos_ok_of_total (fetch : String → Except Unit (List String))
    (htotal : ∀ v, ∃ cs, fetch v = Except.ok cs) :
    ∀ (videos : List String) (st : MarkovState) (sto : Storage) (c : Nat),
      (processVideos fetch videos st sto c).ok = true := by
  intro videos
  induction videos with
  | nil => intro st sto c; rfl
  | cons videoId rest ih =>
    intro st sto c
    obtain ⟨cs, hf⟩ := htotal videoId
    rw [processVideos_cons_ok fetch videoId rest st sto c cs hf]
    by_cases hq : c + cs.length + MAX_COMMENTS_PER_VIDEO > MAX_COMMENTS_PER_DAY
    · rw [if_pos hq]
    · rw [if_neg hq]
      exact ih _ _ _

/-- The counter never decreases across the loop. -/
theorem processVideos_count_ge (fetch : String → Except Unit (List String)) :
    ∀ (videos : List String) (st : MarkovState) (sto : Storage) (c : Nat),
      c ≤ (processVideos fetch videos st sto c).commentsFetched := by
  intro videos
  induction videos with
  | nil => intro st sto c; exact le_refl c
  | cons videoId rest ih =>
    intro st sto c
    cases hf : fetch videoId with
    | error e =>
      rw [processVideos_cons_error fetch videoId rest st sto c e hf]
    | ok comments =>
      rw [processVideos_cons_ok fetch videoId rest st sto c comments hf]
      by_cases hq : c + comments.length + MAX_COMMENTS_PER_VIDEO > MAX_COMMENTS_PER_DAY
      · rw [if_pos hq]
        exact Nat.le_add_right c comments.length
      · rw [if_neg hq]
        exact le_trans (Nat.le_add_right c comments.length) (ih _ _ _)

/-- Quota invariant of the loop: when every fetch stays within the
per-video cap and the next fetch could not pass the ceiling on entry,
the final counter stays at or under the ceiling. -/
theorem processVideos_quota (fetch : String → Except Unit (List String))
    (hcap : ∀ v cs, fetch v = Except.ok cs → cs.length ≤ MAX_COMMENTS_PER_VIDEO) :
    ∀ (videos : List String) (st : MarkovState) (sto : Storage) (c : Nat),
      c + MAX_COMMENTS_PER_VIDEO ≤ MAX_COMMENTS_PER_DAY →
      (processVideos fetch videos st sto c).commentsFetched ≤ MAX_COMMENTS_PER_DAY := by
  intro videos
  induction videos with
  | nil =>
    intro st sto c hc
    exact le_trans (Nat.le_add_right c _) hc
  | cons videoId rest ih =>
    intro st sto c hc
    cases hf : fetch videoId with
    | error e =>
      rw [processVideos_cons_error fetch videoId rest st sto c e hf]
      exact le_trans (Nat.le_add_right c _) hc
    | ok comments =>
      have hlen : comments.length ≤ MAX_COMMENTS_PER_VIDEO := hcap videoId comments hf
      rw [processVideos_cons_ok fetch videoId rest st sto c comments hf]
      by_cases hq : c + comments.length + MAX_COMMENTS_PER_VIDEO > MAX_COMMENTS_PER_DAY
      · rw [if_pos hq]
        show c + comments.length ≤ MAX_COMMENTS_PER_DAY
        calc c + comments.length ≤ c + MAX_COMMENTS_PER_VIDEO :=
              Nat.add_le_add_left hlen c
          _ ≤ MAX_COMMENTS_PER_DAY := hc
      · rw [if_neg hq]
        exact ih _ _ _ (Nat.le_of_not_lt hq)

/-- After a successful fetch of the first batch entry, the loop records it
first, marks it harvested, and counts its comments. -/
theorem processVideos_head (fetch : String → Except Unit (List String))
    (videoId : String) (rest : List String) (st : MarkovState) (sto : Storage)
    (c : Nat) (comments : List String) (hf : fetch videoId = Except.ok comments) :
    (processVideos fetch (videoId :: rest) st sto c).fetchedIDs.head? = some videoId ∧
    videoId ∈ (processVideos fetch (videoId :: rest) st sto c).st.harvestedYoutubeIDs ∧
    comments.length ≤ (processVideos fetch (videoId :: rest) st sto c).commentsFetched := by
  rw [processVideos_cons_ok fetch videoId rest st sto c comments hf]
  by_cases hq : c + comments.length + MAX_COMMENTS_PER_VIDEO > MAX_COMMENTS_PER_DAY
  · rw [if_pos hq]
    refine ⟨rfl, ?_, Nat.le_add_left comments.length c⟩
    show videoId ∈ (stepState st videoId comments).harvestedYoutubeIDs
    simp [stepState, mem_addToSet]
  · rw [if_neg hq]
    refine ⟨rfl, ?_, ?_⟩
    · show videoId ∈ (processVideos fetch rest (stepState st videoId comments)
        (appendComments sto comments) (c + comments.length)).st.harvestedYoutubeIDs
      rw [processVideos_mem_harvested]
      left
      simp [stepState, mem_addToSet]
    · exact le_trans (Nat.le_add_left comments.length c)
        (processVideos_count_ge fetch rest _ _ _)

/-- The final save leaves the in-memory state of the cycle unchanged. -/
theorem updateMapFromYoutube_st_eq (fetch : String → Except Unit (List String))
    (trendingResult : List String) (st : MarkovState) (sto : Storage) :
    (updateMapFromYoutube fetch trendingResult st sto).st =
      (processVideos fetch (filteredBatch st.harvestedYoutubeIDs trendingResult)
        st sto 0).st := by
  simp only [updateMapFromYoutube]
  split <;> rfl

/-- The final save leaves the fetched id list of the cycle unchanged. -/
theorem updateMapFromYoutube_fetched (fetch : String → Except Unit (List String))
    (trendingResult : List String) (st : MarkovState) (sto : Storage) :
    (updateMapFromYoutube fetch trendingResult st sto).fetchedIDs =
      (processVideos fetch (filteredBatch st.harvestedYoutubeIDs trendingResult)
        st sto 0).fetchedIDs := by
  simp only [updateMapFromYoutube]
  split <;> rfl

/-- The final save leaves the comment counter of the cycle unchanged. -/
theorem updateMapFromYoutube_count (fetch : String → Except Unit (List String))
    (trendingResult : List String) (st : MarkovState) (sto : Storage) :
    (updateMapFromYoutube fetch trendingResult st sto).commentsFetched =
      (processVideos fetch (filteredBatch st.harvestedYoutubeIDs trendingResult)
        st sto 0).commentsFetched := by
  simp only [updateMapFromYoutube]
  split <;> rfl

/-- When no fetch rejects, the cycle ends in the unconditional save: the
map file and the id file hold exactly the final in-memory values. -/
theorem updateMapFromYoutube_saves_of_total (fetch : String → Except Unit (List String))
    (htotal : ∀ v, ∃ cs, fetch v = Except.ok cs)
    (trendingResult : List String) (st : MarkovState) (sto : Storage) :
    (updateMapFromYoutube fetch trendingResult st sto).ok = true ∧
    (updateMapFromYoutube fetch trendingResult st sto).sto.mapFile =
      some ((updateMapFromYoutube fetch trendingResult st sto).st.map) ∧
    (updateMapFromYoutube fetch trendingResult st sto).sto.idsFile =
      some ((updateMapFromYoutube fetch trendingResult st sto).st.harvestedYoutubeIDs) := by
  have hok := processVideos_ok_of_total fetch htotal
    (filteredBatch st.harvestedYoutubeIDs trendingResult) st sto 0
  simp only [updateMapFromYoutube, hok, if_true]
  exact ⟨trivial, rfl, rfl⟩

/-- The batch of a cycle is duplicate-free when the trending list is. -/
theorem filteredBatch_nodup (harvested : List String) (trendingResult : List String)
    (h : trendingResult.Nodup) : (filteredBatch harvested trendingResult).Nodup :=
  (h.filter _).sublist (List.take_sublist _ _)

/-- Every batch member was not harvested before the cycle. -/
theorem filteredBatch_not_harvested (harvested : List String)
    (trendingResult : List String) (v : String)
    (hv : v ∈ filteredBatch harvested trendingResult) : v ∉ harvested := by
  have hm := List.mem_of_mem_take hv
  have hp := (List.mem_filter.mp hm).2
  simpa using hp

/-- A restart keeps the storage invariant and loses no harvested id. -/
theorem restart_step (s : MarkovState × Storage) (hs : StInv s) :
    StInv (initialise s.2) ∧
      ∀ v, v ∈ s.1.harvestedYoutubeIDs → v ∈ (initialise s.2).1.harvestedYoutubeIDs := by
  obtain ⟨st, sto⟩ := s
  obtain ⟨mf, idf, cf⟩ := sto
  rcases hs with ⟨h1, h2⟩ | ⟨ids, h1, h2⟩
  · replace h1 : idf = none := h1
    replace h2 : st.harvestedYoutubeIDs = [] := h2
    subst h1
    constructor
    · cases mf with
      | some m =>
        left
        exact ⟨rfl, rfl⟩
      | none =>
        cases cf with
        | some text =>
          right
          refine ⟨[], rfl, ?_⟩
          intro v
          simp [initialise, loadDataFromStorage]
        | none =>
          left
          exact ⟨rfl, rfl⟩
    · intro v hv
      rw [h2] at hv
      exact absurd hv (List.not_mem_nil v)
  · replace h1 : idf = some ids := h1
    replace h2 : ∀ v, v ∈ st.harvestedYoutubeIDs ↔ v ∈ ids := h2
    subst h1
    constructor
    · cases mf with
      | some m =>
        right
        exact ⟨ids, rfl, fun v => mem_setFromList ids v⟩
      | none =>
        cases cf with
        | some text =>
          right
          exact ⟨setFromList ids, rfl, fun v => Iff.rfl⟩
        | none =>
          right
          exact ⟨ids, rfl, fun v => mem_setFromList ids v⟩
    · intro v hv
      have hids : v ∈ ids := (h2 v).mp hv
      cases mf with
      | some m => exact (mem_setFromList ids v).mpr hids
      | none =>
        cases cf with
        | some text => exact (mem_setFromList ids v).mpr hids
        | none => exact (mem_setFromList ids v).mpr hids

/-- One completed harvest cycle: the fetched ids are duplicate-free, all
new, recorded into the harvested set, and the set is persisted. -/
theorem cycle_step (f : String → List String) (t : List String)
    (s : MarkovState × Storage) (hnd : t.Nodup) :
    (runEvent s (Event.cycle t f)).2.Nodup ∧
    (∀ v, v ∈ (runEvent s (Event.cycle t f)).2 → v ∉ s.1.harvestedYoutubeIDs) ∧
    (∀ v, v ∈ (runEvent s (Event.cycle t f)).1.1.harvestedYoutubeIDs ↔
      v ∈ s.1.harvestedYoutubeIDs ∨ v ∈ (runEvent s (Event.cycle t f)).2) ∧
    StInv (runEvent s (Event.cycle t f)).1 := by
  have htotal : ∀ v, ∃ cs,
      (fun v2 => (Except.ok (f v2) : Except Unit (List String))) v = Except.ok cs :=
    fun v => ⟨f v, rfl⟩
  simp only [runEvent]
  refine ⟨?_, ?_, ?_, ?_⟩
  · rw [updateMapFromYoutube_fetched]
    exact (filteredBatch_nodup _ _ hnd).sublist
      (processVideos_fetched_sublist _ _ _ _ _)
  · intro v hv
    rw [updateMapFromYoutube_fetched] at hv
    have hb : v ∈ filteredBatch s.1.harvestedYoutubeIDs t :=
      (processVideos_fetched_sublist _ _ _ _ _).subset hv
    exact filteredBatch_not_harvested _ _ _ hb
  · intro v
    rw [updateMapFromYoutube_st_eq, updateMapFromYoutube_fetched]
    exact processVideos_mem_harvested _ _ _ _ _ _
  · right
    refine ⟨(updateMapFromYoutube (fun v => Except.ok (f v)) t s.1 s.2).st.harvestedYoutubeIDs,
      ?_, fun v => Iff.rfl⟩
    exact (updateMapFromYoutube_saves_of_total _ htotal t s.1 s.2).2.2

/-- Main trace invariant: over any event sequence whose trending lists are
duplicate-free, the fetched ids are globally duplicate-free, all outside
the starting harvested set, and the storage invariant is maintained. -/
theorem runTrace_props (events : List Event) :
    ∀ s : MarkovState × Storage, StInv s →
      (∀ t f, Event.cycle t f ∈ events → t.Nodup) →
      (runTrace s events).2.Nodup ∧
      (∀ v, v ∈ (runTrace s events).2 → v ∉ s.1.harvestedYoutubeIDs) ∧
      StInv (runTrace s events).1 := by
  induction events with
  | nil =>
    intro s hs _
    exact ⟨List.nodup_nil, fun v hv => absurd hv (List.not_mem_nil v), hs⟩
  | cons e rest ih =>
    intro s hs h
    cases e with
    | restart =>
      obtain ⟨hinv2, hmono⟩ := restart_step s hs
      have hrest := ih (initialise s.2) hinv2
        (fun t2 f2 hm => h t2 f2 (List.mem_cons_of_mem _ hm))
      refine ⟨?_, ?_, ?_⟩
      · simpa only [runTrace, runEvent, List.nil_append] using hrest.1
      · intro v hv
        simp only [runTrace, runEvent, List.nil_append] at hv
        intro hmem
        exact hrest.2.1 v hv (hmono v hmem)
      · simpa only [runTrace, runEvent] using hrest.2.2
    | cycle t f =>
      have ht : t.Nodup := h t f (List.mem_cons_self _ _)
      obtain ⟨hnd, hnew, hmem, hinv2⟩ := cycle_step f t s ht
      have hrest := ih (runEvent s (Event.cycle t f)).1 hinv2
        (fun t2 f2 hm => h t2 f2 (List.mem_cons_of_mem _ hm))
      refine ⟨?_, ?_, ?_⟩
      · show ((runEvent s (Event.cycle t f)).2 ++
          (runTrace (runEvent s (Event.cycle t f)).1 rest).2).Nodup
        refine List.Nodup.append hnd hrest.1 ?_
        intro a ha1 ha2
        exact hrest.2.1 a ha2 ((hmem a).mpr (Or.inr ha1))
      · intro v hv
        have hv2 : v ∈ (runEvent s (Event.cycle t f)).2 ∨
            v ∈ (runTrace (runEvent s (Event.cycle t f)).1 rest).2 := by
          simpa only [runTrace, List.mem_append] using hv
        rcases hv2 with hv2 | hv2
        · exact hnew v hv2
        · intro hmem0
          exact hrest.2.1 v hv2 ((hmem v).mpr (Or.inl hmem0))
      · exact hrest.2.2

/-- The fresh system over empty storage satisfies the storage invariant. -/
theorem initialSystem_inv : StInv initialSystem :=
  Or.inl ⟨rfl, rfl⟩

/-- Building the dictionary from empty input yields the empty map. -/
theorem create_empty_eq_nil :
    createDictionaryFromInput "" CHAIN_LENGTH = ([] : IMarkovMap) := rfl

/-- The filter-then-slice of the source equals the spec-side batch walk. -/
theorem specBatch_eq_take_filter (harvested : List String) :
    ∀ (l : List String) (n : Nat),
      (l.filter (fun v => !(harvested.contains v))).take n =
        specBatch harvested l n := by
  intro l
  induction l with
  | nil => intro n; cases n <;> rfl
  | cons v rest ih =>
    intro n
    by_cases hv : v ∈ harvested
    · have hc : harvested.contains v = true := (contains_iff_mem _ _).mpr hv
      cases n with
      | zero => rfl
      | succ m =>
        simp only [List.filter_cons, hc, Bool.not_true, Bool.false_eq_true,
          if_false, ih, specBatch, if_pos hv]
    · have hc : harvested.contains v = false := by
        rw [← Bool.not_eq_true]
        intro hcontra
        exact hv ((contains_iff_mem _ _).mp hcontra)
      cases n with
      | zero => rfl
      | succ m =>
        simp only [List.filter_cons, hc, Bool.not_false, if_true,
          List.take_succ_cons, ih, specBatch, if_neg hv]

/-- C1: during one call to updateMapFromYoutube where every fetch result
respects the per-video cap the collaborator contract imposes, the
cumulative number of comments fetched never exceeds the quota ceiling
(MAX_QUOTA_PER_DAY / QUOTA_COST_PER_FETCH) * COMMENTS_PER_BATCH by more
than MAX_COMMENTS_PER_VIDEO, because the loop stops once the next fetch
could push the running total past the ceiling. -/
theorem updateMapFromYoutube_quota_bound (fetch : String → Except Unit (List String))
    (trendingResult : List String) (st : MarkovState) (sto : Storage)
    (hcap : ∀ v cs, fetch v = Except.ok cs → cs.length ≤ MAX_COMMENTS_PER_VIDEO) :
    (updateMapFromYoutube fetch trendingResult st sto).commentsFetched ≤
      MAX_QUOTA_PER_DAY / QUOTA_COST_PER_FETCH * COMMENTS_PER_BATCH +
        MAX_COMMENTS_PER_VIDEO := by
  rw [updateMapFromYoutube_count]
  have h := processVideos_quota fetch hcap
    (filteredBatch st.harvestedYoutubeIDs trendingResult) st sto 0 (by decide)
  exact le_trans h (Nat.le_add_right _ _)

/-- Witness for C1 at a concrete cycle. -/
theorem updateMapFromYoutube_quota_bound_witness :
    (updateMapFromYoutube (fun _ => Except.ok ([] : List String)) ["a"]
      ⟨[], []⟩ ⟨none, none, none⟩).commentsFetched ≤
      MAX_QUOTA_PER_DAY / QUOTA_COST_PER_FETCH * COMMENTS_PER_BATCH +
        MAX_COMMENTS_PER_VIDEO :=
  updateMapFromYoutube_quota_bound _ ["a"] ⟨[], []⟩ ⟨none, none, none⟩
    (by
      intro v cs h
      injection h with h2
      subst h2
      decide)

/-- C2: over any sequence of harvest cycles, interleaved with process
restarts that reload the persisted state through initialise, no video id
is ever fetched twice, provided each cycle's trending list is itself
duplicate-free. -/
theorem harvest_never_refetches (events : List Event)
    (hnodup : ∀ t f, Event.cycle t f ∈ events → t.Nodup) :
    (runTrace initialSystem events).2.Nodup :=
  (runTrace_props events initialSystem initialSystem_inv hnodup).1

/-- Witness for C2 at a concrete trace with a cycle and a restart. -/
theorem harvest_never_refetches_witness :
    (runTrace initialSystem
      [Event.cycle ["a", "b"] demoFetch, Event.restart]).2.Nodup :=
  harvest_never_refetches [Event.cycle ["a", "b"] demoFetch, Event.restart]
    (by
      intro t f hm
      simp only [List.mem_cons, List.not_mem_nil, or_false] at hm
      rcases hm with hm | hm
      · rw [Event.cycle.injEq] at hm
        rw [hm.1]
        decide
      · exact absurd hm (by intro hcontra; cases hcontra))

/-- C3: the batch processed in a cycle equals the discovery list with the
already-harvested identifiers removed, in preserved order, truncated to
at most MAX_VIDEOS_PER_UPDATE elements: it coincides with the spec-side
walk, is a sublist of the candidates, and respects the cap. -/
theorem filteredBatch_spec (harvested : List String) (trendingResult : List String) :
    filteredBatch harvested trendingResult =
      specBatch harvested trendingResult MAX_VIDEOS_PER_UPDATE ∧
    List.Sublist (filteredBatch harvested trendingResult) trendingResult ∧
    (filteredBatch harvested trendingResult).length ≤ MAX_VIDEOS_PER_UPDATE := by
  refine ⟨specBatch_eq_take_filter harvested trendingResult MAX_VIDEOS_PER_UPDATE,
    ?_, ?_⟩
  · exact (List.take_sublist _ _).trans (List.filter_sublist _)
  · exact List.length_take_le _ _

/-- C4 counterexample: a cycle whose single fetch rejects returns without
persisting anything; with empty starting storage, neither the map file
nor the id file holds the final in-memory values. -/
theorem updateMapFromYoutube_fetch_failure_skips_save :
    ¬ ((updateMapFromYoutube (fun _ => Except.error ()) ["a"]
          ⟨[], []⟩ ⟨none, none, none⟩).sto.mapFile =
        some ((updateMapFromYoutube (fun _ => Except.error ()) ["a"]
          ⟨[], []⟩ ⟨none, none, none⟩).st.map) ∧
       (updateMapFromYoutube (fun _ => Except.error ()) ["a"]
          ⟨[], []⟩ ⟨none, none, none⟩).sto.idsFile =
        some ((updateMapFromYoutube (fun _ => Except.error ()) ["a"]
          ⟨[], []⟩ ⟨none, none, none⟩).st.harvestedYoutubeIDs)) := by
  decide

/-- C4 amended: every call to updateMapFromYoutube in which no individual
fetch fails persists the transition map and the harvested-ID index before
returning, both when the loop runs to completion and when it stops early
at the quota ceiling; a fetch failure instead aborts the cycle before the
save. -/
theorem updateMapFromYoutube_persists_on_success
    (fetch : String → Except Unit (List String))
    (trendingResult : List String) (st : MarkovState) (sto : Storage)
    (htotal : ∀ v, ∃ cs, fetch v = Except.ok cs) :
    (updateMapFromYoutube fetch trendingResult st sto).ok = true ∧
    (updateMapFromYoutube fetch trendingResult st sto).sto.mapFile =
      some ((updateMapFromYoutube fetch trendingResult st sto).st.map) ∧
    (updateMapFromYoutube fetch trendingResult st sto).sto.idsFile =
      some ((updateMapFromYoutube fetch trendingResult st sto).st.harvestedYoutubeIDs) :=
  updateMapFromYoutube_saves_of_total fetch htotal trendingResult st sto

/-- Witness for the amended C4 at a concrete successful cycle. -/
theorem updateMapFromYoutube_persists_on_success_witness :
    (updateMapFromYoutube (fun _ => Except.ok (["hello"] : List String)) ["a"]
      ⟨[], []⟩ ⟨none, none, none⟩).ok = true ∧
    (updateMapFromYoutube (fun _ => Except.ok (["hello"] : List String)) ["a"]
      ⟨[], []⟩ ⟨none, none, none⟩).sto.mapFile =
      some ((updateMapFromYoutube (fun _ => Except.ok (["hello"] : List String)) ["a"]
        ⟨[], []⟩ ⟨none, none, none⟩).st.map) ∧
    (updateMapFromYoutube (fun _ => Except.ok (["hello"] : List String)) ["a"]
      ⟨[], []⟩ ⟨none, none, none⟩).sto.idsFile =
      some ((updateMapFromYoutube (fun _ => Except.ok (["hello"] : List String)) ["a"]
        ⟨[], []⟩ ⟨none, none, none⟩).st.harvestedYoutubeIDs) :=
  updateMapFromYoutube_persists_on_success _ ["a"] ⟨[], []⟩ ⟨none, none, none⟩
    (fun _ => ⟨["hello"], rfl⟩)

/-- C5: initialise completes for every storage state, with a defined map
in each case: the parsed map when the map file loads, the map rebuilt
from the corpus log when the map file is missing or malformed but the log
is present, and a fresh empty-input map when both are missing; a read
failure never surfaces as an error. -/
theorem initialise_total_recovery (sto : Storage) :
    (∀ m, sto.mapFile = some m → (initialise sto).1.map = m) ∧
    (sto.mapFile = none → ∀ text, sto.commentsFile = some text →
      (initialise sto).1.map =
        updateDictionaryFromInput text (createDictionaryFromInput "" CHAIN_LENGTH)
          CHAIN_LENGTH) ∧
    (sto.mapFile = none → sto.commentsFile = none →
      (initialise sto).1.map = createDictionaryFromInput "" CHAIN_LENGTH) := by
  obtain ⟨mf, idf, cf⟩ := sto
  cases mf <;> cases cf <;> cases idf <;>
    simp [initialise, loadDataFromStorage, saveDataToStorage]

/-- Witness for C5 at the fully empty storage. -/
theorem initialise_total_recovery_witness :
    (initialise ⟨none, none, none⟩).1.map =
      createDictionaryFromInput "" CHAIN_LENGTH :=
  (initialise_total_recovery ⟨none, none, none⟩).2.2 rfl rfl

/-- C6: with the map file absent but the corpus log present, initialise
produces exactly the map built directly from the log text at the same
chain length, and re-persists the map and id list before returning; this
holds for every log text and any state of the id file. -/
theorem initialise_rebuilds_from_comment_log (ids : Option (List String))
    (text : String) :
    (initialise ⟨none, ids, some text⟩).1.map =
      createDictionaryFromInput text CHAIN_LENGTH ∧
    (initialise ⟨none, ids, some text⟩).2.mapFile =
      some ((initialise ⟨none, ids, some text⟩).1.map) ∧
    (initialise ⟨none, ids, some text⟩).2.idsFile =
      some ((initialise ⟨none, ids, some text⟩).1.harvestedYoutubeIDs) := by
  have h : createDictionaryFromInput text CHAIN_LENGTH =
      updateDictionaryFromInput text (createDictionaryFromInput "" CHAIN_LENGTH)
        CHAIN_LENGTH := by
    rw [create_empty_eq_nil]
    rfl
  cases ids <;>
    simp [initialise, loadDataFromStorage, saveDataToStorage, h]

/-- C7: evaluating getKeyValueRatio at the failing input, the empty map:
the source divides the summed successor count 0 by the key count 0, and
javascript division yields NaN, not a defined numeric sentinel. -/
theorem getKeyValueRatio_empty_map_nan :
    getKeyValueRatio ([] : IMarkovMap) = JSNum.nan := by
  simp [getKeyValueRatio, getKeyCount, jsDiv]

/-- C8: getSentencesProcessed equals the total number of END control
tokens across all successor lists of the map, duplicates counted. -/
theorem getSentencesProcessed_counts_end_tokens (map : IMarkovMap) :
    getSentencesProcessed map =
      (map.map (fun kv => kv.2.count Token.END)).sum := by
  unfold getSentencesProcessed
  rw [← List.countP_eq_length_filter]
  have hcount : ((map.map Prod.snd).flatten).countP (fun token => token == Token.END) =
      ((map.map Prod.snd).flatten).count Token.END := rfl
  rw [hcount, List.count_flatten, List.map_map]
  rfl

/-- C9 counterexample: with only the root existing, writing to a path two
directories deep fails: the non-recursive mkdirSync of the containing
directory throws because the intermediate ancestor is missing, so the
helper does not create all missing parent directories. -/
theorem saveJSONToFile_fails_on_deep_missing_dirs :
    saveJSONToFile ⟨[]⟩ ["data", "youtube", "markovMap.json"] =
      Except.error () := rfl

/-- C9 amended: the write helpers create only the immediate containing
directory of the target path when it is missing; a write therefore
succeeds whenever the containing directory exists, or is the only missing
ancestor (its own parent exists), and the containing directory exists
afterwards. Deeper missing ancestors still make the write fail. -/
theorem saveJSONToFile_creates_immediate_parent (fs : FileSys)
    (filePath : List String)
    (h : existsSync fs (dirnameFS filePath) = true ∨
      existsSync fs (dirnameFS (dirnameFS filePath)) = true) :
    (∃ fs2, saveJSONToFile fs filePath = Except.ok fs2 ∧
      existsSync fs2 (dirnameFS filePath) = true) ∧
    (∃ fs2, saveCommentsToStorageFS fs filePath = Except.ok fs2 ∧
      existsSync fs2 (dirnameFS filePath) = true) := by
  by_cases hd : existsSync fs (dirnameFS filePath) = true
  · constructor <;>
      exact ⟨fs, by
        simp only [saveJSONToFile, saveCommentsToStorageFS, hd, if_true,
          writeFileFS, if_pos hd], hd⟩
  · have hparent : existsSync fs (dirnameFS (dirnameFS filePath)) = true := by
      rcases h with h | h
      · exact absurd h hd
      · exact h
    have hdf : existsSync fs (dirnameFS filePath) = false :=
      Bool.not_eq_true _ ▸ (Bool.of_not_eq_true hd)
    have hmk : mkdirSync fs (dirnameFS filePath) =
        Except.ok ⟨dirnameFS filePath :: fs.dirs⟩ := by
      unfold mkdirSync
      rw [if_neg (by rw [hdf]; intro hcontra; cases hcontra), if_pos hparent]
    have hex2 : existsSync ⟨dirnameFS filePath :: fs.dirs⟩ (dirnameFS filePath) = true := by
      unfold existsSync
      simp [List.contains_cons]
    constructor <;>
      exact ⟨⟨dirnameFS filePath :: fs.dirs⟩, by
        simp only [saveJSONToFile, saveCommentsToStorageFS, hdf,
          Bool.false_eq_true, if_false, hmk, writeFileFS, hex2, if_true], hex2⟩

/-- Witness for the amended C9 with the containing directory missing but
its parent (the root) present. -/
theorem saveJSONToFile_creates_immediate_parent_witness :
    (∃ fs2, saveJSONToFile ⟨[]⟩ ["data", "map.json"] = Except.ok fs2 ∧
      existsSync fs2 (dirnameFS ["data", "map.json"]) = true) ∧
    (∃ fs2, saveCommentsToStorageFS ⟨[]⟩ ["data", "map.json"] = Except.ok fs2 ∧
      existsSync fs2 (dirnameFS ["data", "map.json"]) = true) :=
  saveJSONToFile_creates_immediate_parent ⟨[]⟩ ["data", "map.json"]
    (Or.inr rfl)

/-- C10: in every cycle whose filtered batch is non-empty, the first batch
entry is fetched (its fetch happens before any quota check, which only
runs after a video is processed), fed to the dictionary updater, marked
harvested, and its comments counted, for any prior state whatsoever. -/
theorem first_video_always_processed (fetch : String → Except Unit (List String))
    (trendingResult : List String) (st : MarkovState) (sto : Storage)
    (v : String) (cs : List String)
    (hhead : (filteredBatch st.harvestedYoutubeIDs trendingResult).head? = some v)
    (hfetch : fetch v = Except.ok cs) :
    (updateMapFromYoutube fetch trendingResult st sto).fetchedIDs.head? = some v ∧
    v ∈ (updateMapFromYoutube fetch trendingResult st sto).st.harvestedYoutubeIDs ∧
    cs.length ≤ (updateMapFromYoutube fetch trendingResult st sto).commentsFetched := by
  rw [updateMapFromYoutube_fetched, updateMapFromYoutube_st_eq,
    updateMapFromYoutube_count]
  cases hb : filteredBatch st.harvestedYoutubeIDs trendingResult with
  | nil =>
    rw [hb] at hhead
    exact absurd hhead (by intro hcontra; cases hcontra)
  | cons w tail =>
    rw [hb] at hhead
    have hw : w = v := by
      simpa using hhead
    subst hw
    exact processVideos_head fetch w tail st sto 0 cs hfetch

/-- Witness for C10 at a concrete one-video cycle. -/
theorem first_video_always_processed_witness :
    (updateMapFromYoutube (fun _ => Except.ok (["hi"] : List String)) ["a"]
      ⟨[], []⟩ ⟨none, none, none⟩).fetchedIDs.head? = some "a" ∧
    "a" ∈ (updateMapFromYoutube (fun _ => Except.ok (["hi"] : List String)) ["a"]
      ⟨[], []⟩ ⟨none, none, none⟩).st.harvestedYoutubeIDs ∧
    (["hi"] : List String).length ≤
      (updateMapFromYoutube (fun _ => Except.ok (["hi"] : List String)) ["a"]
        ⟨[], []⟩ ⟨none, none, none⟩).commentsFetched :=
  first_video_always_processed _ ["a"] ⟨[], []⟩ ⟨none, none, none⟩ "a" ["hi"]
    rfl rfl
